import Mathlib

/-!
Shallow embedding of the `memory-cache` engine (src/index.js).

The store `this.$` is a JavaScript object mapping keys to item records; we
model it as an association list with unique keys (JS objects hold at most
one property per key).  JavaScript falsiness matters throughout the source
(`false` and `0` are both falsy), so the `tags` and `expires` fields, whose
"absent" marker is the literal `false`, are modelled as `Option` values and
the truthiness tests are made explicit: `none` is the `false` marker and a
numeric value is truthy iff it is nonzero.

Time is `Date.now()/1000|0`, an integer number of seconds; every operation
that reads the clock takes `now : Int` as an explicit parameter.
-/

namespace MemoryCache

/-- One cached entry, mirroring the record built by `set` in src/index.js:
`{key, payload, tags, expires, created}`.  `tags = none` and
`expires = none` stand for the literal `false` markers. -/
structure Item (α : Type) where
  key : String
  payload : α
  tags : Option (List String)
  expires : Option Int
  created : Int
deriving Repr, DecidableEq

/-- The internal store `this.$`: an association list of key/item pairs. -/
abbrev Store (α : Type) := List (String × Item α)

/-- JS truthiness of a number-or-`false` field: `false` (none) and `0` are
falsy, every other number is truthy. -/
def truthyNum : Option Int → Bool
  | none => false
  | some n => n != 0

/-- Arguments that JS functions receive where a string or an array is
expected.  `other` stands for any value that is neither a string nor an
array (modelled as truthy, e.g. a plain object or a nonzero number). -/
inductive JsArg where
  | str (s : String)
  | arr (l : List String)
  | other
deriving Repr, DecidableEq

/-- JS truthiness of a `JsArg`: the empty string is falsy, every other
string, every array (even `[]`) is truthy; `other` models a truthy value. -/
def truthyArg : Option JsArg → Bool
  | none => false
  | some (.str s) => s != ""
  | some (.arr _) => true
  | some .other => true

/-- Whitespace characters matched by the regex `\s` (ASCII range). -/
def isWs (c : Char) : Bool :=
  c = ' ' || c = '\t' || c = '\n' || c = '\r' || c = '\x0b' || c = '\x0c'

/-- `input.replace(/\s+/g, ' ')`: each maximal run of whitespace becomes a
single space. -/
def collapseWs : List Char → List Char
  | [] => []
  | [c] => if isWs c then [' '] else [c]
  | c1 :: c2 :: rest =>
    if isWs c1 then
      if isWs c2 then collapseWs (c2 :: rest)
      else ' ' :: collapseWs (c2 :: rest)
    else c1 :: collapseWs (c2 :: rest)

/-- `.trim()` after the whitespace collapse: only single spaces can remain
at either end. -/
def trimSpaces (l : List Char) : List Char :=
  ((l.dropWhile (· = ' ')).reverse.dropWhile (· = ' ')).reverse

/-- `.split(' ')`: like JS `String.prototype.split`, the empty string
yields `[""]`. -/
def splitSp : List Char → List (List Char)
  | [] => [[]]
  | c :: cs =>
    match splitSp cs with
    | [] => [[c]]
    | t :: ts => if c = ' ' then [] :: t :: ts else (c :: t) :: ts

/-- `input.replace(/\s+/g, ' ').trim().split(' ')` from `_paramArray`. -/
def splitTags (s : String) : List String :=
  (splitSp (trimSpaces (collapseWs s.data))).map (fun l => String.mk l)

/-- `_paramArray`: standardize tag/key input; a string is whitespace-split,
an array is passed through, anything else throws. -/
def paramArray : JsArg → Except String (List String)
  | .str s => .ok (splitTags s)
  | .arr l => .ok l
  | .other => .error "[memory-cache] invalid input, must be string or an array"

/-- Plain lookup in the store, `this.$[key]` (`undefined` ↦ `none`). -/
def lookupStore {α : Type} : Store α → String → Option (Item α)
  | [], _ => none
  | e :: rest, k => if e.1 = k then some e.2 else lookupStore rest k

/-- `this.$[key] = item`: replace the binding if the key is present,
append a new property otherwise. -/
def storeSet {α : Type} : Store α → String → Item α → Store α
  | [], k, it => [(k, it)]
  | e :: rest, k, it => if e.1 = k then (k, it) :: rest else e :: storeSet rest k it

/-- `delete this.$[key]`: drop the (unique) binding for `k`. -/
def removeKey {α : Type} (st : Store α) (k : String) : Store α :=
  st.filter (fun e => !(e.1 == k))

/-- `_itemHasAllTags`: every query tag is among the item's tags. -/
def itemHasAllTags (itemTags : List String) (tags : List String) : Bool :=
  tags.all (fun t => itemTags.contains t)

/-- `_itemHasAnyTag`: some query tag is among the item's tags. -/
def itemHasAnyTag (itemTags : List String) (tags : List String) : Bool :=
  tags.any (fun t => itemTags.contains t)

/-- The shared match step of `getTagged` and `_deleteItemsTagged`:
`if(!item.tags) continue` (untagged items never match), then the
any/all predicate according to the `all` flag. -/
def tagMatch {α : Type} (all : Bool) (tags : List String) (it : Item α) : Bool :=
  match it.tags with
  | none => false
  | some itemTags => if all then itemHasAllTags itemTags tags else itemHasAnyTag itemTags tags

/-- Options accepted by `set`. -/
structure SetOpts where
  expireIn : Option Int := none
  expireAt : Option Int := none
  tags : Option JsArg := none
deriving Repr

/-- The `expires` field computed by `set`:
`opts.expireIn ? now + opts.expireIn : (opts.expireAt || false)`.
A zero `expireIn` or `expireAt` is falsy and falls through. -/
def computeExpires (now : Int) (expireIn expireAt : Option Int) : Option Int :=
  match expireIn with
  | some d => if d ≠ 0 then some (now + d) else (match expireAt with
      | some a => if a ≠ 0 then some a else none
      | none => none)
  | none => match expireAt with
      | some a => if a ≠ 0 then some a else none
      | none => none

/-- `set(key, payload, opts)`: builds a fresh item record and stores it at
`key`; throws only if a truthy `opts.tags` is neither string nor array
(via `_paramArray`).  Returns `true`. -/
def set {α : Type} (now : Int) (st : Store α) (key : String) (payload : α)
    (opts : SetOpts) : Except String (Bool × Store α) := do
  let tags : Option (List String) ←
    if truthyArg opts.tags then
      match opts.tags with
      | some a => (paramArray a).map some
      | none => pure none
    else
      pure none
  pure (true, storeSet st key
    { key := key, payload := payload, tags := tags,
      expires := computeExpires now opts.expireIn opts.expireAt, created := now })

/-- The `tags` field that a successful `set` call stores:
`opts.tags ? this._paramArray(opts.tags) : false`.  (The `other` case is
the one where `set` throws inside `_paramArray`; it never reaches a
stored record.) -/
def setTagsVal : Option JsArg → Option (List String)
  | none => none
  | some (.str s) => if s = "" then none else some (splitTags s)
  | some (.arr l) => some l
  | some .other => none

/-- Options accepted by `get`.  `default = none` models the `null`
sentinel (`_defaultOrNull` returns `opts.default` when defined, `null`
otherwise, and `null` is also what `none` denotes in the result). -/
structure GetOpts (α : Type) where
  default : Option α := none
  maxAge : Option Int := none
  force : Bool := false

/-- The tail of `get`: `expires === false` ⇒ always fresh; otherwise the
item is fresh iff `expires` is truthy (nonzero) and `expires > now`. -/
def expiresCheck {α : Type} (now : Int) (item : Item α) (opts : GetOpts α) : Option α :=
  match item.expires with
  | none => some item.payload
  | some e => if e ≠ 0 ∧ e > now then some item.payload else opts.default

/-- `get(key, opts)`: absent ⇒ default; `force` ⇒ payload; truthy
`maxAge` ⇒ fresh iff `maxAge > now - created`; otherwise the `expires`
check.  A zero `maxAge` is falsy (`if(opts.maxAge)`) and falls through to
the `expires` check. -/
def get {α : Type} (now : Int) (st : Store α) (key : String) (opts : GetOpts α) : Option α :=
  match lookupStore st key with
  | none => opts.default
  | some item =>
    if opts.force then some item.payload
    else
      match opts.maxAge with
      | some m =>
        if m ≠ 0 then
          if m > now - item.created then some item.payload else opts.default
        else expiresCheck now item opts
      | none => expiresCheck now item opts

/-- `get` never writes `this.$`; at the state level it returns the store
unchanged alongside its result. -/
def getOp {α : Type} (now : Int) (st : Store α) (key : String) (opts : GetOpts α) :
    Option α × Store α :=
  (get now st key opts, st)

/-- `getMeta(key)`: the raw item or `null`, no freshness check. -/
def getMeta {α : Type} (st : Store α) (key : String) : Option (Item α) :=
  lookupStore st key

/-- The loop of `delete`: for each key of the normalized input, skip it if
absent (`if(!this.$[key]) continue` — items are objects, hence truthy),
otherwise delete the binding and count it. -/
def deleteGo {α : Type} : Store α → List String → Store α × Nat
  | st, [] => (st, 0)
  | st, k :: ks =>
    match lookupStore st k with
    | none => deleteGo st ks
    | some _ =>
      let r := deleteGo (removeKey st k) ks
      (r.1, r.2 + 1)

/-- `delete(keys)`: normalize the input through `_paramArray` (throwing on
non-string/non-array input), then remove each present key, returning the
new store and the removed count. -/
def deleteKeys {α : Type} (st : Store α) (input : JsArg) : Except String (Store α × Nat) :=
  (paramArray input).map (fun kl => deleteGo st kl)

/-- `clear()`. -/
def clear {α : Type} (_st : Store α) : Store α := []

/-- Options accepted by `getTagged` / `deleteTagged` / `trigger`. -/
structure TagOpts where
  all : Bool := false
  meta : Bool := false
deriving Repr

/-- The scan loop of `getTagged`: collect every stored entry whose item
matches the tag predicate.  The source stores `item.payload` as the value
(or the whole item under `opts.meta`); we keep the matched `(key, item)`
pairs, of which both result shapes are projections. -/
def getTaggedGo {α : Type} (tags : List String) (all : Bool) : Store α → List (String × Item α)
  | [] => []
  | e :: rest =>
    if tagMatch all tags e.2 then (e.1, e.2) :: getTaggedGo tags all rest
    else getTaggedGo tags all rest

/-- `getTagged(tags, opts)` in its default (`meta:false`) shape: key ↦
payload for every matched item.  No freshness filtering. -/
def getTagged {α : Type} (st : Store α) (tags : JsArg) (opts : TagOpts) :
    Except String (List (String × α)) :=
  (paramArray tags).map
    (fun tl => (getTaggedGo tl opts.all st).map (fun e => (e.1, e.2.payload)))

/-- The scan loop of `_deleteItemsTagged`: delete every entry whose item
matches the tag predicate, counting removals.  No freshness filtering. -/
def deleteTaggedGo {α : Type} (tags : List String) (allTags : Bool) :
    Store α → Store α × Nat
  | [] => ([], 0)
  | e :: rest =>
    let r := deleteTaggedGo tags allTags rest
    if tagMatch allTags tags e.2 then (r.1, r.2 + 1) else (e :: r.1, r.2)

/-- `_deleteItemsTagged(tags, allTags)`: normalize the tag input, then run
the deletion scan; returns the normalized tags, the new store and the
removed count (the source returns `[tags, removed]` and mutates `this.$`). -/
def deleteItemsTagged {α : Type} (st : Store α) (tags : JsArg) (allTags : Bool) :
    Except String (List String × Store α × Nat) :=
  (paramArray tags).map (fun tl => (tl, deleteTaggedGo tl allTags st))

/-- `deleteTagged(tags, opts)`: returns the removed count (paired here
with the new store). -/
def deleteTagged {α : Type} (st : Store α) (tags : JsArg) (opts : TagOpts) :
    Except String (Nat × Store α) :=
  (deleteItemsTagged st tags opts.all).map (fun r => (r.2.2, r.2.1))

/-- `trigger(tags, opts)`: identical to `deleteTagged` except for the log
line. -/
def trigger {α : Type} (st : Store α) (tags : JsArg) (opts : TagOpts) :
    Except String (Nat × Store α) :=
  (deleteItemsTagged st tags opts.all).map (fun r => (r.2.2, r.2.1))

/-- The removal test of `deleteExpired`:
`if(cached.expires && now > cached.expires)` — the `expires` field must be
truthy (not the `false` marker and nonzero) and strictly below `now`. -/
def gcExpired {α : Type} (now : Int) (it : Item α) : Bool :=
  match it.expires with
  | none => false
  | some e => e != 0 && decide (now > e)

/-- `deleteExpired()`: scan the whole store, delete every item whose
`expires` is truthy and strictly below `now`, and return the new store
with the removed count. -/
def deleteExpired {α : Type} (now : Int) : Store α → Store α × Nat
  | [] => ([], 0)
  | e :: rest =>
    let r := deleteExpired now rest
    if gcExpired now e.2 then (r.1, r.2 + 1) else (e :: r.1, r.2)

/-- `export()` in its default mode (neither `persistent` nor `expired`):
run `deleteExpired` first, then snapshot everything remaining.  The JSON
serialization step is modelled as the identity on snapshots, which is
exact for serializable payloads (`JSON.parse(JSON.stringify(x)) = x`). -/
def exportDefault {α : Type} (now : Int) (st : Store α) : Store α :=
  (deleteExpired now st).1

/-- `import(obj)`: replace the whole store with the snapshot (a string is
first `JSON.parse`d, modelled as the identity like in `exportDefault`). -/
def importState {α : Type} (snapshot : Store α) : Store α := snapshot

/-- Key uniqueness of a JS object: no two entries share a key. -/
def NodupKeys {α : Type} (st : Store α) : Prop := (st.map Prod.fst).Nodup

/-! Concrete sample items and stores, used to evaluate the operations at
specific inputs. -/

/-- A never-expiring item created at time 10. -/
def itemFresh : Item String :=
  { key := "k", payload := "v", tags := none, expires := none, created := 10 }

/-- An item whose `expires` field is the number `0` (reachable through
`import`), which is falsy in JS. -/
def itemZeroExp : Item String :=
  { key := "z", payload := "p", tags := none, expires := some 0, created := 0 }

/-- A second item with a zero `expires` timestamp. -/
def itemZeroExp2 : Item String :=
  { key := "z", payload := "q", tags := none, expires := some 0, created := 1 }

/-- An item expiring far in the future (at 1000), created at 0. -/
def itemFutureExp : Item String :=
  { key := "k", payload := "v", tags := none, expires := some 1000, created := 0 }

/-- An item that expired at time 5. -/
def itemPastExp : Item String :=
  { key := "k", payload := "v", tags := none, expires := some 5, created := 0 }

/-- An item whose expiry timestamp is exactly 7. -/
def itemBoundary : Item String :=
  { key := "k", payload := "v", tags := none, expires := some 7, created := 0 }

/-- An untagged item (`tags` is the `false` marker). -/
def itemUntagged : Item String :=
  { key := "u", payload := "vu", tags := none, expires := none, created := 0 }

/-- A tagged item that is already expired (at time 1). -/
def itemTaggedExpired : Item String :=
  { key := "e", payload := "ve", tags := some ["foo", "bar"], expires := some 1, created := 0 }

/-- An item stored under a key containing a space. -/
def itemSpaceKey : Item String :=
  { key := "a b", payload := "v", tags := none, expires := none, created := 0 }

/-- Plain items under keys "a" and "c". -/
def itemA : Item String :=
  { key := "a", payload := "va", tags := none, expires := none, created := 0 }

/-- See `itemA`. -/
def itemC : Item String :=
  { key := "c", payload := "vc", tags := none, expires := none, created := 0 }

/-- Store holding `itemFresh` at "k". -/
def stFresh : Store String := [("k", itemFresh)]

/-- Store holding `itemFutureExp` at "k". -/
def stFuture : Store String := [("k", itemFutureExp)]

/-- Store holding `itemZeroExp` at "z". -/
def stZero : Store String := [("z", itemZeroExp)]

/-- Store holding `itemZeroExp2` at "z". -/
def stZero2 : Store String := [("z", itemZeroExp2)]

/-- Store holding an untagged item and an expired tagged item. -/
def stTag : Store String := [("u", itemUntagged), ("e", itemTaggedExpired)]

/-- Store holding `itemPastExp` at "k". -/
def stPast : Store String := [("k", itemPastExp)]

/-- Store holding `itemBoundary` at "k". -/
def stBoundary : Store String := [("k", itemBoundary)]

/-- Store whose only key contains a space. -/
def stSpaceKey : Store String := [("a b", itemSpaceKey)]

/-- Store holding the keys "a" and "c". -/
def stAC : Store String := [("a", itemA), ("c", itemC)]

section Lemmas

variable {α : Type}

/-- A successful lookup yields an entry of the store. -/
theorem lookupStore_some_mem {st : Store α} {k : String} {it : Item α}
    (h : lookupStore st k = some it) : (k, it) ∈ st := by
  induction st with
  | nil => simp [lookupStore] at h
  | cons e rest ih =>
    obtain ⟨k1, v1⟩ := e
    by_cases he : k1 = k
    · subst he
      simp [lookupStore] at h
      simp [h]
    · simp [lookupStore, he] at h
      exact List.mem_cons_of_mem _ (ih h)

/-- A failed lookup means no entry carries the key. -/
theorem lookupStore_none_forall {st : Store α} {k : String}
    (h : lookupStore st k = none) : ∀ e ∈ st, e.1 ≠ k := by
  induction st with
  | nil => simp
  | cons e rest ih =>
    by_cases he : e.1 = k
    · simp [lookupStore, he] at h
    · intro x hx
      rcases List.mem_cons.mp hx with h1 | h1
      · simpa [h1] using he
      · have h' : lookupStore rest k = none := by simpa [lookupStore, he] using h
        exact ih h' x h1

/-- Filtering preserves key uniqueness. -/
theorem nodupKeys_filter (st : Store α) (p : String × Item α → Bool)
    (h : NodupKeys st) : NodupKeys (st.filter p) :=
  List.Nodup.sublist (List.Sublist.map Prod.fst (List.filter_sublist st)) h

/-- Setting a key makes it look up to the new item. -/
theorem lookupStore_storeSet_self (st : Store α) (k : String) (it : Item α) :
    lookupStore (storeSet st k it) k = some it := by
  induction st with
  | nil => simp [storeSet, lookupStore]
  | cons e rest ih =>
    by_cases he : e.1 = k
    · simp [storeSet, he, lookupStore]
    · simp [storeSet, he, lookupStore, ih]

/-- Setting a key leaves every other key's lookup unchanged. -/
theorem lookupStore_storeSet_ne (st : Store α) (k k' : String) (it : Item α)
    (hne : k' ≠ k) : lookupStore (storeSet st k it) k' = lookupStore st k' := by
  have hkk' : ¬ (k = k') := fun h => hne h.symm
  induction st with
  | nil => simp [storeSet, lookupStore, hkk']
  | cons e rest ih =>
    by_cases he : e.1 = k
    · simp [storeSet, he, lookupStore, hkk']
    · by_cases he' : e.1 = k'
      · simp [storeSet, he, lookupStore, he', hne]
      · simp [storeSet, he, lookupStore, he', ih]

/-- The `getTagged` scan is the filter of the store by the tag predicate. -/
theorem getTaggedGo_eq (tl : List String) (all : Bool) (st : Store α) :
    getTaggedGo tl all st = st.filter (fun e => tagMatch all tl e.2) := by
  induction st with
  | nil => rfl
  | cons e rest ih =>
    by_cases h : tagMatch all tl e.2 <;>
      simp [getTaggedGo, List.filter_cons, h, ih]

/-- The `_deleteItemsTagged` scan keeps exactly the non-matching entries and
counts the matching ones. -/
theorem deleteTaggedGo_eq (tl : List String) (all : Bool) (st : Store α) :
    deleteTaggedGo tl all st =
      (st.filter (fun e => !(tagMatch all tl e.2)),
        st.countP (fun e => tagMatch all tl e.2)) := by
  induction st with
  | nil => rfl
  | cons e rest ih =>
    by_cases h : tagMatch all tl e.2 <;>
      simp [deleteTaggedGo, List.filter_cons, List.countP_cons, h, ih]

/-- The `deleteExpired` scan keeps exactly the entries that fail the
removal test and counts the removed ones. -/
theorem deleteExpired_eq (now : Int) (st : Store α) :
    deleteExpired now st =
      (st.filter (fun e => !(gcExpired now e.2)),
        st.countP (fun e => gcExpired now e.2)) := by
  induction st with
  | nil => rfl
  | cons e rest ih =>
    by_cases h : gcExpired now e.2 <;>
      simp [deleteExpired, List.filter_cons, List.countP_cons, h, ih]

/-- The removal test holds exactly on nonzero expiry timestamps strictly
below the clock. -/
theorem gcExpired_iff (now : Int) (it : Item α) :
    gcExpired now it = true ↔ ∃ e, it.expires = some e ∧ e ≠ 0 ∧ e < now := by
  unfold gcExpired
  cases h : it.expires with
  | none => simp
  | some e => simp [gt_iff_lt]

/-- With unique keys, an entry found by `lookupStore` contributes exactly
one to the count of store keys hit by `k :: ks`; the remaining hits are
counted in the store with `k` removed. -/
theorem countP_cons_key {st : Store α} {k : String} {it : Item α} (ks : List String)
    (hnd : NodupKeys st) (hl : lookupStore st k = some it) :
    st.countP (fun e => decide (e.1 ∈ k :: ks)) =
      (removeKey st k).countP (fun e => decide (e.1 ∈ ks)) + 1 := by
  induction st with
  | nil => simp [lookupStore] at hl
  | cons e rest ih =>
    rw [NodupKeys, List.map_cons, List.nodup_cons] at hnd
    have hnd' : NodupKeys rest := hnd.2
    have hkey : ∀ x ∈ rest, x.1 ≠ e.1 := by
      intro x hx hh
      exact hnd.1 (hh ▸ List.mem_map_of_mem Prod.fst hx)
    by_cases he : e.1 = k
    · have hrest : removeKey (e :: rest) k = rest := by
        unfold removeKey
        rw [List.filter_cons]
        have h1 : (!(e.1 == k)) = false := by simp [he]
        rw [h1]
        simp only [Bool.false_eq_true, if_false]
        rw [List.filter_eq_self]
        intro a ha
        have hak : a.1 ≠ k := fun hh => hkey a ha (hh.trans he.symm)
        simp [hak]
      have h2 : (decide (e.1 ∈ k :: ks)) = true := by simp [he]
      have h3 : rest.countP (fun x => decide (x.1 ∈ k :: ks)) =
          rest.countP (fun x => decide (x.1 ∈ ks)) := by
        apply List.countP_congr
        intro x hx
        have hxk : x.1 ≠ k := fun hh => hkey x hx (hh.trans he.symm)
        simp [List.mem_cons, hxk]
      rw [hrest, List.countP_cons, h2, h3]
      simp
    · have hl' : lookupStore rest k = some it := by
        simpa [lookupStore, he] using hl
      have hrest : removeKey (e :: rest) k = e :: removeKey rest k := by
        unfold removeKey
        rw [List.filter_cons]
        simp [he]
      rw [hrest, List.countP_cons, List.countP_cons, ih hnd' hl']
      have h2 : (decide (e.1 ∈ k :: ks)) = (decide (e.1 ∈ ks)) := by
        simp [List.mem_cons, he]
      rw [h2]
      by_cases h3 : e.1 ∈ ks
      · simp [h3]
      · simp [h3]

/-- The `delete` loop keeps exactly the entries whose key is not in the
normalized key list and counts one removal per present key. -/
theorem deleteGo_eq (kl : List String) : ∀ st : Store α, NodupKeys st →
    deleteGo st kl = (st.filter (fun e => !decide (e.1 ∈ kl)),
      st.countP (fun e => decide (e.1 ∈ kl))) := by
  induction kl with
  | nil =>
    intro st _
    simp [deleteGo]
  | cons k ks ih =>
    intro st hnd
    cases hl : lookupStore st k with
    | none =>
      have hne := lookupStore_none_forall hl
      simp only [deleteGo, hl]
      rw [ih st hnd]
      refine Prod.ext ?_ ?_
      · apply List.filter_congr
        intro x hx
        simp [List.mem_cons, hne x hx]
      · apply List.countP_congr
        intro x hx
        simp [List.mem_cons, hne x hx]
    | some it =>
      have hnd' : NodupKeys (removeKey st k) := nodupKeys_filter st _ hnd
      simp only [deleteGo, hl]
      rw [ih (removeKey st k) hnd']
      refine Prod.ext ?_ ?_
      · show (removeKey st k).filter (fun e => !decide (e.1 ∈ ks)) =
          st.filter (fun e => !decide (e.1 ∈ k :: ks))
        unfold removeKey
        rw [List.filter_filter]
        apply List.filter_congr
        intro x hx
        by_cases h1 : x.1 = k <;> by_cases h2 : x.1 ∈ ks <;> simp [h1, h2]
      · show (removeKey st k).countP (fun e => decide (e.1 ∈ ks)) + 1 =
          st.countP (fun e => decide (e.1 ∈ k :: ks))
        exact (countP_cons_key ks hnd hl).symm

end Lemmas

section Claims

variable {α : Type}

/-- Claim C1, counterexample: with `maxAge` supplied as `0`, the claim
predicts a miss whenever `maxAge > now - created` fails (here `0 > 0`),
regardless of `expires`; but `0` is falsy in `if(opts.maxAge)`, so `get`
falls back to the `expires` check and returns the payload. -/
theorem get_maxAge_zero_uses_expires :
    ¬ ((0 : Int) > 10 - itemFresh.created)
    ∧ get 10 stFresh "k" { default := none, maxAge := some 0, force := false } = some "v" :=
  ⟨by decide, by decide⟩

/-- Claim C1 (amended): for every stored key and every `get` call whose
`maxAge` is supplied and nonzero, the freshness decision ignores the
item's `expires` field entirely: the call returns the payload iff
`maxAge > now - created` and otherwise the default/null.  (A zero
`maxAge` is falsy and is treated as absent.) -/
theorem get_maxAge_overrides_expires (now : Int) (st : Store α) (k : String)
    (it : Item α) (opts : GetOpts α) (m : Int)
    (hl : lookupStore st k = some it) (hf : opts.force = false)
    (hm : opts.maxAge = some m) (hm0 : m ≠ 0) :
    get now st k opts =
      if m > now - it.created then some it.payload else opts.default := by
  simp [get, hl, hf, hm, hm0]

/-- Claim C1 witness: an item with a future `expires` (1000) still misses
at time 10 under `maxAge := 5`, because `now - created = 10 ≥ 5`. -/
theorem get_maxAge_overrides_expires_witness :
    get 10 stFuture "k" { default := none, maxAge := some 5, force := false } = none :=
  (get_maxAge_overrides_expires 10 stFuture "k" itemFutureExp
      { default := none, maxAge := some 5, force := false } 5
      rfl rfl rfl (by decide)).trans (by decide)

/-- Claim C2, counterexample: an item whose `expires` field is the
explicit timestamp `0` is strictly below the current time `5`, so the
claim says `deleteExpired` removes it; but `0` is falsy in
`if(cached.expires && ...)`, so the sweep keeps it and counts nothing. -/
theorem deleteExpired_keeps_zero_expires :
    itemZeroExp.expires = some 0 ∧ (0 : Int) < 5
    ∧ deleteExpired 5 stZero = (stZero, 0) :=
  ⟨rfl, by decide, by decide⟩

/-- Claim C2 (amended): `deleteExpired` removes exactly the items whose
`expires` is an explicit nonzero timestamp strictly below the current
time (a zero timestamp is falsy, hence treated like the never-expires
marker and left untouched, as are still-fresh items); the returned count
is the number of items removed; and it is idempotent: an immediate second
call at the same time removes zero items. -/
theorem deleteExpired_spec (now : Int) (st : Store α) :
    (∀ (k : String) (it : Item α),
        (k, it) ∈ (deleteExpired now st).1 ↔
          ((k, it) ∈ st ∧ ¬ ∃ e, it.expires = some e ∧ e ≠ 0 ∧ e < now))
    ∧ (deleteExpired now st).2 + (deleteExpired now st).1.length = st.length
    ∧ (deleteExpired now st).2 = st.countP (fun e => gcExpired now e.2)
    ∧ deleteExpired now (deleteExpired now st).1 = ((deleteExpired now st).1, 0) := by
  refine ⟨?_, ?_, ?_, ?_⟩
  · intro k it
    simp [deleteExpired_eq, List.mem_filter, ← gcExpired_iff]
  · simp only [deleteExpired_eq]
    rw [← List.countP_eq_length_filter]
    have h := List.length_eq_countP_add_countP (fun e : String × Item α => gcExpired now e.2) st
    have h2 : st.countP (fun e => !(gcExpired now e.2)) =
        st.countP (fun e : String × Item α => ¬ (gcExpired now e.2)) := by
      apply List.countP_congr
      intro x hx
      simp
    omega
  · simp [deleteExpired_eq]
  · simp only [deleteExpired_eq]
    rw [List.filter_filter, List.countP_filter]
    refine Prod.ext ?_ ?_
    · apply List.filter_congr
      intro x hx
      simp
    · simp

/-- Claim C3, counterexample: an item with the explicit timestamp `0` in
`expires` is already expired at time `5` (`0 < 5`), so the claim says it
must be absent from the round trip; but the sweep run by the default
`export` treats `0` as falsy and keeps it, so `import(export())`
reproduces it. -/
theorem export_import_keeps_zero_expires :
    itemZeroExp2.expires = some 0 ∧ (0 : Int) < 5
    ∧ lookupStore (importState (exportDefault 5 stZero2)) "z" = some itemZeroExp2 :=
  ⟨rfl, by decide, by decide⟩

/-- Claim C3 (amended): default `export()` (which first runs
`deleteExpired`, with serialization modelled as the identity on
serializable payloads) followed by `import()` yields a store containing
exactly the entries of the original store that are still live in the
code's sense: an entry survives the round trip, with its payload, tags,
expires and created values reproduced exactly, iff its `expires` is not a
nonzero timestamp strictly below the current time; every expired item
with a nonzero timestamp is absent (an item whose `expires` is the zero
timestamp is treated as never-expiring by the sweep and survives). -/
theorem export_import_roundtrip (now : Int) (st : Store α) :
    ∀ (k : String) (it : Item α),
      (k, it) ∈ importState (exportDefault now st) ↔
        ((k, it) ∈ st ∧ ¬ ∃ e, it.expires = some e ∧ e ≠ 0 ∧ e < now) := by
  intro k it
  simp [importState, exportDefault, deleteExpired_eq, List.mem_filter, ← gcExpired_iff]

/-- Claim C4, counterexample: with `expireIn` supplied as `0` and
`expireAt` as `100`, the claim predicts `expires = now + 0 = 50` and
`expireAt` ignored; but `0` is falsy in `opts.expireIn ? ... : ...`, so
the code stores `expires = 100`. -/
theorem set_zero_expireIn_uses_expireAt :
    set 50 ([] : Store String) "k" "v"
        { expireIn := some 0, expireAt := some 100, tags := none } =
      Except.ok (true, [("k", { key := "k", payload := "v", tags := none,
                                expires := some 100, created := 50 })])
    ∧ (100 : Int) ≠ 50 + 0 :=
  ⟨rfl, by decide⟩

/-- Whenever `opts.tags` is not a truthy non-string non-array value,
`set` succeeds and stores the freshly computed record. -/
theorem set_ok (now : Int) (st : Store α) (k : String) (p : α) (opts : SetOpts)
    (htags : opts.tags ≠ some JsArg.other) :
    set now st k p opts = Except.ok (true, storeSet st k
      { key := k, payload := p, tags := setTagsVal opts.tags,
        expires := computeExpires now opts.expireIn opts.expireAt,
        created := now }) := by
  match hcase : opts.tags with
  | none =>
    simp only [set, truthyArg, setTagsVal, hcase]
    rfl
  | some (.str s) =>
    by_cases hs : s = ""
    · simp only [set, truthyArg, setTagsVal, hcase, hs]
      rfl
    · simp only [set, truthyArg, setTagsVal, paramArray, hcase, hs, bne_iff_ne, ne_eq,
        not_false_eq_true, if_true]
      rfl
  | some (.arr l) =>
    simp only [set, truthyArg, setTagsVal, paramArray, hcase]
    rfl
  | some .other => exact absurd hcase htags

/-- Claim C4 (amended): `set` stores `expires = now + expireIn` for a
truthy (nonzero) `expireIn`, and whenever a nonzero `expireIn` is given
any supplied `expireAt` is ignored; a zero `expireIn` is falsy and
treated as absent, so a nonzero `expireAt` is then used as given; when
neither is effectively given (absent or zero) the item gets the
never-expires marker. -/
theorem set_expiry_spec (now : Int) (st : Store α) (k : String) (p : α)
    (opts : SetOpts) (htags : opts.tags ≠ some JsArg.other) :
    (∃ st', set now st k p opts = Except.ok (true, st')
        ∧ (lookupStore st' k).map Item.expires =
            some (computeExpires now opts.expireIn opts.expireAt))
    ∧ (∀ d, opts.expireIn = some d → d ≠ 0 →
        computeExpires now opts.expireIn opts.expireAt = some (now + d))
    ∧ (∀ a, truthyNum opts.expireIn = false → opts.expireAt = some a → a ≠ 0 →
        computeExpires now opts.expireIn opts.expireAt = some a)
    ∧ (truthyNum opts.expireIn = false → truthyNum opts.expireAt = false →
        computeExpires now opts.expireIn opts.expireAt = none) := by
  refine ⟨⟨_, set_ok now st k p opts htags, ?_⟩, ?_, ?_, ?_⟩
  · rw [lookupStore_storeSet_self]
    rfl
  · intro d hd hd0
    simp [computeExpires, hd, hd0]
  · intro a hin ha ha0
    cases hd : opts.expireIn with
    | none => simp [computeExpires, hd, ha, ha0]
    | some d =>
      have hd0 : d = 0 := by
        rw [hd] at hin
        simpa [truthyNum] using hin
      simp [computeExpires, hd, hd0, ha, ha0]
  · intro hin hat
    cases hd : opts.expireIn with
    | none =>
      cases ha : opts.expireAt with
      | none => simp [computeExpires, hd, ha]
      | some a =>
        have ha0 : a = 0 := by
          rw [ha] at hat
          simpa [truthyNum] using hat
        simp [computeExpires, hd, ha, ha0]
    | some d =>
      have hd0 : d = 0 := by
        rw [hd] at hin
        simpa [truthyNum] using hin
      cases ha : opts.expireAt with
      | none => simp [computeExpires, hd, hd0, ha]
      | some a =>
        have ha0 : a = 0 := by
          rw [ha] at hat
          simpa [truthyNum] using hat
        simp [computeExpires, hd, hd0, ha, ha0]

/-- Claim C4 witness: `expireIn = 7` at time 50 stores the absolute
timestamp 57. -/
theorem set_expiry_spec_witness :
    computeExpires 50 (some 7) (some 100) = some 57 :=
  ((set_expiry_spec 50 ([] : Store String) "k" "v"
      { expireIn := some 7, expireAt := some 100, tags := none }
      (by decide)).2.1 7 rfl (by decide)).trans (by decide)

/-- Claim C8: every `set` call (with a well-typed `tags` option: absent,
string, or array — the spec's declared option shapes) succeeds returning
`true` and stores at `key` an item computed from this call's arguments
alone — the same item whatever the prior store contents, so nothing is
merged from any previous item — with `created = now`; all other keys are
untouched. -/
theorem set_always_replaces (now : Int) (k : String) (p : α) (opts : SetOpts)
    (htags : opts.tags ≠ some JsArg.other) :
    ∃ it : Item α, it.key = k ∧ it.payload = p ∧ it.created = now ∧
      ∀ st : Store α, ∃ st', set now st k p opts = Except.ok (true, st')
        ∧ lookupStore st' k = some it
        ∧ ∀ k', k' ≠ k → lookupStore st' k' = lookupStore st k' := by
  refine ⟨{ key := k, payload := p, tags := setTagsVal opts.tags,
            expires := computeExpires now opts.expireIn opts.expireAt, created := now },
    rfl, rfl, rfl, ?_⟩
  intro st
  exact ⟨_, set_ok now st k p opts htags, lookupStore_storeSet_self st k _,
    fun k' hk' => lookupStore_storeSet_ne st k k' _ hk'⟩

/-- Claim C8 witness: a concrete `set` call at time 50, with a
space-delimited tag string. -/
theorem set_always_replaces_witness :
    ∃ it : Item String, it.key = "k" ∧ it.payload = "v" ∧ it.created = 50 ∧
      ∀ st : Store String, ∃ st',
        set 50 st "k" "v"
            { expireIn := none, expireAt := none, tags := some (JsArg.str "foo bar") } =
          Except.ok (true, st')
        ∧ lookupStore st' "k" = some it
        ∧ ∀ k', k' ≠ "k" → lookupStore st' k' = lookupStore st k' :=
  set_always_replaces 50 "k" "v"
    { expireIn := none, expireAt := none, tags := some (JsArg.str "foo bar") }
    (by decide)

/-- Claim C5: an item stored with the no-tags marker matches no tag query
(it is skipped by `getTagged` and kept by `deleteTagged`/`trigger`,
whatever the query and the any/all mode); and the tag operations apply no
freshness filtering: any matching item — with no condition whatsoever on
its `expires` field, hence also an expired one — is returned by
`getTagged`, removed by the delete scan, and counted (the count equals
the number of matching items, freshness ignored); `deleteTagged` and
`trigger` both return that count. -/
theorem tag_ops_untagged_and_unfiltered (st : Store α) (tl : List String)
    (all : Bool) (k : String) (it : Item α) (hmem : (k, it) ∈ st) :
    (it.tags = none →
        (k, it) ∉ getTaggedGo tl all st ∧ (k, it) ∈ (deleteTaggedGo tl all st).1)
    ∧ (tagMatch all tl it = true →
        (k, it) ∈ getTaggedGo tl all st ∧ (k, it) ∉ (deleteTaggedGo tl all st).1)
    ∧ (deleteTaggedGo tl all st).2 = st.countP (fun e => tagMatch all tl e.2)
    ∧ deleteTagged st (JsArg.arr tl) { all := all, meta := false } =
        Except.ok ((deleteTaggedGo tl all st).2, (deleteTaggedGo tl all st).1)
    ∧ trigger st (JsArg.arr tl) { all := all, meta := false } =
        Except.ok ((deleteTaggedGo tl all st).2, (deleteTaggedGo tl all st).1) := by
  refine ⟨?_, ?_, ?_, rfl, rfl⟩
  · intro htags
    have hmatch : tagMatch all tl it = false := by simp [tagMatch, htags]
    constructor
    · rw [getTaggedGo_eq]
      simp [List.mem_filter, hmatch]
    · rw [deleteTaggedGo_eq]
      simp [List.mem_filter, hmem, hmatch]
  · intro hmatch
    constructor
    · rw [getTaggedGo_eq]
      simp [List.mem_filter, hmem, hmatch]
    · rw [deleteTaggedGo_eq]
      simp [List.mem_filter, hmatch]
  · rw [deleteTaggedGo_eq]

/-- Claim C5 witness: the expired item tagged `foo` is still returned by
the tag scan. -/
theorem tag_ops_untagged_and_unfiltered_witness :
    ("e", itemTaggedExpired) ∈ getTaggedGo ["foo"] false stTag :=
  ((tag_ops_untagged_and_unfiltered stTag ["foo"] false "e" itemTaggedExpired
      (by decide)).2.1 (by decide)).1

/-- Claim C6: `deleteTagged(tags, {all:true})` removes a stored tagged
item iff the item's tag set is a superset of the query tags (a query tag
absent from the item prevents removal); the returned count equals the
number of items removed (count plus surviving entries is the store
size). -/
theorem deleteTagged_all_superset (st : Store α) (tl its : List String)
    (k : String) (it : Item α) (hmem : (k, it) ∈ st) (htags : it.tags = some its) :
    ((k, it) ∉ (deleteTaggedGo tl true st).1 ↔ ∀ t ∈ tl, t ∈ its)
    ∧ (deleteTaggedGo tl true st).2 + (deleteTaggedGo tl true st).1.length = st.length
    ∧ deleteTagged st (JsArg.arr tl) { all := true, meta := false } =
        Except.ok ((deleteTaggedGo tl true st).2, (deleteTaggedGo tl true st).1) := by
  have hiff : tagMatch true tl it = true ↔ ∀ t ∈ tl, t ∈ its := by
    simp [tagMatch, htags, itemHasAllTags, List.all_eq_true]
  refine ⟨?_, ?_, rfl⟩
  · rw [deleteTaggedGo_eq]
    constructor
    · intro h
      rw [← hiff]
      by_contra hc
      have hc' : tagMatch true tl it = false := by
        cases htm : tagMatch true tl it
        · rfl
        · exact absurd htm hc
      exact h (List.mem_filter.mpr ⟨hmem, by simp [hc']⟩)
    · intro h hmemf
      have h2 := (List.mem_filter.mp hmemf).2
      rw [← hiff] at h
      simp [h] at h2
  · simp only [deleteTaggedGo_eq]
    rw [← List.countP_eq_length_filter]
    have h := List.length_eq_countP_add_countP
      (fun e : String × Item α => tagMatch true tl e.2) st
    have h2 : st.countP (fun e => !(tagMatch true tl e.2)) =
        st.countP (fun e : String × Item α => ¬ (tagMatch true tl e.2)) := by
      apply List.countP_congr
      intro x hx
      simp
    omega

/-- Claim C6 witness: the query `["foo", "zzz"]` has a tag absent from
the item's tags `["foo", "bar"]`, so the item survives the all-mode
delete; the query `["foo"]` is a subset, so it is removed. -/
theorem deleteTagged_all_superset_witness :
    (("e", itemTaggedExpired) ∉ (deleteTaggedGo ["foo", "zzz"] true stTag).1 ↔
        ∀ t ∈ ["foo", "zzz"], t ∈ ["foo", "bar"])
    ∧ (deleteTaggedGo ["foo", "zzz"] true stTag).2 +
        (deleteTaggedGo ["foo", "zzz"] true stTag).1.length = stTag.length
    ∧ deleteTagged stTag (JsArg.arr ["foo", "zzz"]) { all := true, meta := false } =
        Except.ok ((deleteTaggedGo ["foo", "zzz"] true stTag).2,
          (deleteTaggedGo ["foo", "zzz"] true stTag).1) :=
  deleteTagged_all_superset stTag ["foo", "zzz"] ["foo", "bar"] "e" itemTaggedExpired
    (by decide) rfl

/-- Claim C7: a `get` on a present key that misses because the item is
stale — by a truthy `maxAge` that has elapsed, or by a stale `expires`
(a timestamp that is zero or not in the future) — returns the
default/null and leaves the store exactly as it was; in particular the
item is still there with all fields intact. -/
theorem get_stale_miss_preserves_store (now : Int) (st : Store α) (k : String)
    (it : Item α) (opts : GetOpts α)
    (hl : lookupStore st k = some it) (hf : opts.force = false)
    (hstale : (∃ m, opts.maxAge = some m ∧ m ≠ 0 ∧ ¬ (m > now - it.created))
      ∨ (truthyNum opts.maxAge = false
          ∧ ∃ e, it.expires = some e ∧ (e = 0 ∨ e ≤ now))) :
    getOp now st k opts = (opts.default, st)
    ∧ lookupStore (getOp now st k opts).2 k = some it := by
  have hres : get now st k opts = opts.default := by
    rcases hstale with ⟨m, hm, hm0, hlt⟩ | ⟨hma, e, he, hce⟩
    · simp [get, hl, hf, hm, hm0, hlt]
    · have hexp : expiresCheck now it opts = opts.default := by
        rcases hce with h0 | hle
        · simp [expiresCheck, he, h0]
        · have hnot : ¬ (e ≠ 0 ∧ e > now) := fun hc => absurd hle (not_le.mpr hc.2)
          simp [expiresCheck, he, hnot]
      cases hma' : opts.maxAge with
      | none => simp [get, hl, hf, hma', hexp]
      | some m =>
        have hm0 : m = 0 := by
          rw [hma'] at hma
          simpa [truthyNum] using hma
        simp [get, hl, hf, hma', hm0, hexp]
  exact ⟨by simp [getOp, hres], by simp [getOp, hl]⟩

/-- Claim C7 witness: the item that expired at time 5 misses at time 10
and is still stored, untouched, afterwards. -/
theorem get_stale_miss_preserves_store_witness :
    getOp 10 stPast "k" { default := none, maxAge := none, force := false } =
      (none, stPast)
    ∧ lookupStore
        (getOp 10 stPast "k" { default := none, maxAge := none, force := false }).2 "k" =
      some itemPastExp :=
  get_stale_miss_preserves_store 10 stPast "k" itemPastExp
    { default := none, maxAge := none, force := false } rfl rfl
    (Or.inr ⟨rfl, 5, rfl, Or.inr (by decide)⟩)

/-- Claim C9, counterexample: `delete` given the single key `"a b"` (a
string) does not remove the present item stored under that key and
returns 0, because `_paramArray` splits the string on whitespace into
`["a", "b"]`; the claim predicts removal of `"a b"` and a count of 1. -/
theorem delete_splits_string_key :
    lookupStore stSpaceKey "a b" = some itemSpaceKey
    ∧ deleteKeys stSpaceKey (JsArg.str "a b") = Except.ok (stSpaceKey, 0) :=
  ⟨rfl, rfl⟩

/-- Claim C9 (amended): `delete` accepts a sequence of keys, or a string
that is interpreted as a whitespace-delimited sequence of keys (so a
single key only when it contains no whitespace); it removes each
resulting key that is present, silently skips absent keys, and returns
the count of entries actually removed; any input that is neither a
string nor a sequence raises an explicit error. -/
theorem delete_spec (st : Store α) (h : NodupKeys st) :
    (∀ kl : List String, deleteKeys st (JsArg.arr kl) =
        Except.ok (st.filter (fun e => !decide (e.1 ∈ kl)),
          st.countP (fun e => decide (e.1 ∈ kl))))
    ∧ (∀ s : String, deleteKeys st (JsArg.str s) =
        Except.ok (st.filter (fun e => !decide (e.1 ∈ splitTags s)),
          st.countP (fun e => decide (e.1 ∈ splitTags s))))
    ∧ deleteKeys st JsArg.other =
        Except.error "[memory-cache] invalid input, must be string or an array" := by
  refine ⟨?_, ?_, rfl⟩
  · intro kl
    simp [deleteKeys, paramArray, Except.map, deleteGo_eq kl st h]
  · intro s
    simp [deleteKeys, paramArray, Except.map, deleteGo_eq (splitTags s) st h]

/-- Claim C9 witness: deleting by the string `"a b"` on a store holding
keys "a" and "c" removes "a", skips the absent "b", and returns 1. -/
theorem delete_spec_witness :
    deleteKeys stAC (JsArg.str "a b") = Except.ok ([("c", itemC)], 1) :=
  ((delete_spec stAC (by unfold NodupKeys; decide)).2.1 "a b").trans (by rfl)

/-- Claim C10: at the boundary instant where an item's `expires` equals
the current time, `get` (without `force` and without a truthy `maxAge`)
misses and returns the default (freshness requires `expires > now`),
while `deleteExpired` does not remove the item (removal requires
`now > expires`) and counts nothing for it — so the item misses on read
yet survives a sweep run at that same instant. -/
theorem expiry_boundary_disagreement (now : Int) (st : Store α) (k : String)
    (it : Item α) (opts : GetOpts α)
    (hl : lookupStore st k = some it) (he : it.expires = some now)
    (hf : opts.force = false) (hm : truthyNum opts.maxAge = false) :
    get now st k opts = opts.default
    ∧ gcExpired now it = false
    ∧ (k, it) ∈ (deleteExpired now st).1
    ∧ (deleteExpired now st).2 = st.countP (fun e => gcExpired now e.2) := by
  have hgc : gcExpired now it = false := by
    simp [gcExpired, he, lt_irrefl]
  have hget : get now st k opts = opts.default := by
    have hexp : expiresCheck now it opts = opts.default := by
      have hnot : ¬ (now ≠ 0 ∧ now > now) := fun hc => lt_irrefl now hc.2
      simp [expiresCheck, he, hnot]
    cases hma' : opts.maxAge with
    | none => simp [get, hl, hf, hma', hexp]
    | some m =>
      have hm0 : m = 0 := by
        rw [hma'] at hm
        simpa [truthyNum] using hm
      simp [get, hl, hf, hma', hm0, hexp]
  refine ⟨hget, hgc, ?_, ?_⟩
  · rw [deleteExpired_eq]
    simp [List.mem_filter, lookupStore_some_mem hl, hgc]
  · simp [deleteExpired_eq]

/-- Claim C10 witness: the item expiring exactly at time 7 misses on
read at time 7 but survives the sweep at time 7, which counts zero. -/
theorem expiry_boundary_disagreement_witness :
    get 7 stBoundary "k" { default := none, maxAge := none, force := false } = none
    ∧ gcExpired 7 itemBoundary = false
    ∧ ("k", itemBoundary) ∈ (deleteExpired 7 stBoundary).1
    ∧ (deleteExpired 7 stBoundary).2 = stBoundary.countP (fun e => gcExpired 7 e.2) :=
  expiry_boundary_disagreement 7 stBoundary "k" itemBoundary
    { default := none, maxAge := none, force := false } rfl rfl rfl rfl

end Claims

end MemoryCache
